import Mathlib

/-!
Verification of the parametric recomputation engine and its cancellable-resource
framework against the repository source.

Side effects of callbacks are modelled as state transformers on an explicit
world type W; a callback that throws is modelled as returning an error
(Except E W).  Stateful objects are shallowly embedded as structures holding
their fields, and method calls as functions on those structures.
-/

set_option autoImplicit false

universe u v

/-! ## Cancellable.ts: CancellablePromise and CancellableRegistor -/

/-- The record an executor returns (source: type Executor, the returned
record with the two callbacks).  Each callback is a state transformer on the
observable world. -/
structure ExecutorResult (W : Type u) where
  cancel : W → W
  finish : W → W

/-- source: class CancellablePromise.  The constructor runs the executor
(synchronously, inside the wrapped Promise constructor) and stores the
returned callbacks directly in the fields (that.cancel = cancel;
that.finish = finish).  There is no state field guarding repeated calls:
calling the cancel() method simply applies the stored callback. -/
structure CancellablePromise (W : Type u) where
  cancel : W → W
  finish : W → W

/-- source: the CancellablePromise constructor, which passes resolve and
reject to the executor and keeps the callbacks the executor returns. -/
def CancellablePromise.ofExecutor {W : Type u}
    (executor : (W → W) → (W → W) → ExecutorResult W)
    (resolve reject : W → W) : CancellablePromise W :=
  let r := executor resolve reject
  { cancel := r.cancel, finish := r.finish }

/-- A registered resource (source: Cancellable & Finishable).  A method that
throws is modelled as Except.error carrying the thrown value. -/
structure Resource (W : Type u) (E : Type v) where
  cancel : W → Except E W
  finish : W → Except E W

/-- source: class CancellableRegistor with its resources array. -/
structure CancellableRegistor (W : Type u) (E : Type v) where
  resources : List (Resource W E)

/-- The for-loop of CancellableRegistor.cancel / finish: invoke the given
method on each resource in order; an exception aborts the loop and
propagates (there is no try/catch in the source loop). -/
def invokeEach {W : Type u} {E : Type v} (call : Resource W E → W → Except E W) :
    List (Resource W E) → W → Except E W
  | [], w => Except.ok w
  | r :: rs, w =>
    match call r w with
    | Except.error e => Except.error e
    | Except.ok w2 => invokeEach call rs w2

/-- source: CancellableRegistor.cancel, a plain for-loop over resources. -/
def CancellableRegistor.cancel {W : Type u} {E : Type v}
    (reg : CancellableRegistor W E) (w : W) : Except E W :=
  invokeEach (fun r => r.cancel) reg.resources w

/-- source: CancellableRegistor.finish, symmetric to cancel. -/
def CancellableRegistor.finish {W : Type u} {E : Type v}
    (reg : CancellableRegistor W E) (w : W) : Except E W :=
  invokeEach (fun r => r.finish) reg.resources w

/-- An executor whose cancel and finish callbacks count their invocations:
the world is the number of callback invocations so far. -/
def countingPromise : CancellablePromise Nat :=
  CancellablePromise.ofExecutor (fun _ _ => ⟨fun n => n + 1, fun n => n + 1⟩) id id

/-- C4 counterexample: calling cancel() twice on a CancellablePromise does
not have the same observable effect as calling it once.  With an executor
whose cancel callback counts its invocations, two cancel() calls leave the
count at 2, one call leaves it at 1: the callbacks are invoked again, so the
claimed one-shot Pending-to-Cancelled transition does not exist in the code. -/
theorem CancellablePromise.cancel_twice_ne_once :
    countingPromise.cancel (countingPromise.cancel 0) ≠ countingPromise.cancel 0 := by
  decide

/-- C4 (amended): CancellablePromise has no state guard.  Each call of
cancel() (or finish()) applies the executor-returned callback once more, so
n calls produce exactly n callback invocations; in particular two calls have
the effect of one only when the callback itself is idempotent. -/
theorem CancellablePromise.no_oneshot_guard :
    (∀ (W : Type) (executor : (W → W) → (W → W) → ExecutorResult W)
        (resolve reject : W → W) (w : W),
        (CancellablePromise.ofExecutor executor resolve reject).cancel w
          = (executor resolve reject).cancel w
        ∧ (CancellablePromise.ofExecutor executor resolve reject).finish w
          = (executor resolve reject).finish w)
    ∧ (∀ n : Nat, countingPromise.cancel^[n] 0 = n)
    ∧ (∀ n : Nat, countingPromise.finish^[n] 0 = n) := by
  refine ⟨fun W executor resolve reject w => ⟨rfl, rfl⟩, ?_, ?_⟩ <;>
    · intro n
      induction n with
      | zero => rfl
      | succ k ih => rw [Function.iterate_succ_apply', ih]; rfl

/-- A resource whose cancel and finish throw, recording invocation 1 in the
world before the throw (the error carries the world at the throw). -/
def throwingResource : Resource (List Nat) (List Nat) :=
  ⟨fun w => Except.error (w ++ [1]), fun w => Except.error (w ++ [1])⟩

/-- A resource whose cancel and finish succeed, recording invocation 2. -/
def loggingResource : Resource (List Nat) (List Nat) :=
  ⟨fun w => Except.ok (w ++ [2]), fun w => Except.ok (w ++ [2])⟩

/-- C5 counterexample: with two registered resources where the first one's
cancel() throws, CancellableRegistor.cancel propagates the exception and the
second resource's cancel() is never invoked: the final world [1] records
only the first resource's invocation, never the mark 2 that the second
resource would have appended.  So a throwing resource does prevent cancel()
from reaching the remaining resources, contrary to the claim. -/
theorem CancellableRegistor.cancel_not_fault_isolated :
    CancellableRegistor.cancel ⟨[throwingResource, loggingResource]⟩ []
      = Except.error [1]
    ∧ (2 : Nat) ∉ ([1] : List Nat) := by
  exact ⟨rfl, by decide⟩

/-- A resource built from two pure (non-throwing) state transformers. -/
def pureResource {W : Type u} {E : Type v} (f g : W → W) : Resource W E :=
  ⟨fun w => Except.ok (f w), fun w => Except.ok (g w)⟩

theorem invokeEach_append {W : Type u} {E : Type v}
    (call : Resource W E → W → Except E W) (l1 l2 : List (Resource W E)) (w : W) :
    invokeEach call (l1 ++ l2) w
      = match invokeEach call l1 w with
        | Except.error e => Except.error e
        | Except.ok w2 => invokeEach call l2 w2 := by
  induction l1 generalizing w with
  | nil => rfl
  | cons r rs ih =>
    show (match call r w with
          | Except.error e => Except.error e
          | Except.ok w2 => invokeEach call (rs ++ l2) w2)
        = match (match call r w with
                 | Except.error e => Except.error e
                 | Except.ok w2 => invokeEach call rs w2) with
          | Except.error e => Except.error e
          | Except.ok w2 => invokeEach call l2 w2
    cases call r w with
    | error e => rfl
    | ok w2 => exact ih w2

/-- C5 (amended): CancellableRegistor.cancel invokes cancel() on the
registered resources in registration order, but only up to the first
resource whose cancel throws: when no resource throws every resource is
invoked in order (the final world is the in-order composition of their
effects), and when a resource throws the exception propagates out of the
loop and none of the resources registered after it are invoked (the result
does not depend on them at all); symmetrically for finish(). -/
theorem CancellableRegistor.cancel_order_and_first_throw {W : Type u} {E : Type v} :
    (∀ (fs : List ((W → W) × (W → W))) (w : W),
        (⟨fs.map fun p => pureResource p.1 p.2⟩ : CancellableRegistor W E).cancel w
          = Except.ok (fs.foldl (fun v p => p.1 v) w)
        ∧ (⟨fs.map fun p => pureResource p.1 p.2⟩ : CancellableRegistor W E).finish w
          = Except.ok (fs.foldl (fun v p => p.2 v) w))
    ∧ (∀ (rs1 rs2 : List (Resource W E)) (bad : Resource W E) (w w1 : W) (err : E),
        invokeEach (fun r => r.cancel) rs1 w = Except.ok w1 →
        bad.cancel w1 = Except.error err →
        CancellableRegistor.cancel ⟨rs1 ++ bad :: rs2⟩ w = Except.error err)
    ∧ (∀ (rs1 rs2 : List (Resource W E)) (bad : Resource W E) (w w1 : W) (err : E),
        invokeEach (fun r => r.finish) rs1 w = Except.ok w1 →
        bad.finish w1 = Except.error err →
        CancellableRegistor.finish ⟨rs1 ++ bad :: rs2⟩ w = Except.error err) := by
  refine ⟨?_, ?_, ?_⟩
  · intro fs w
    constructor
    · induction fs generalizing w with
      | nil => rfl
      | cons p ps ih => exact ih (p.1 w)
    · induction fs generalizing w with
      | nil => rfl
      | cons p ps ih => exact ih (p.2 w)
  · intro rs1 rs2 bad w w1 err h1 h2
    show invokeEach (fun r => r.cancel) (rs1 ++ bad :: rs2) w = _
    rw [invokeEach_append, h1]
    show (match bad.cancel w1 with
          | Except.error e => Except.error e
          | Except.ok w2 => invokeEach (fun r => r.cancel) rs2 w2) = _
    rw [h2]
  · intro rs1 rs2 bad w w1 err h1 h2
    show invokeEach (fun r => r.finish) (rs1 ++ bad :: rs2) w = _
    rw [invokeEach_append, h1]
    show (match bad.finish w1 with
          | Except.error e => Except.error e
          | Except.ok w2 => invokeEach (fun r => r.finish) rs2 w2) = _
    rw [h2]

/-- C5 witness: the amended theorem applied to a concrete registrar: an
empty succeeding prefix, a throwing resource, and one further resource. -/
theorem CancellableRegistor.cancel_order_and_first_throw_witness :
    CancellableRegistor.cancel ⟨[] ++ throwingResource :: [loggingResource]⟩ []
      = Except.error [1] :=
  CancellableRegistor.cancel_order_and_first_throw.2.1
    [] [loggingResource] throwingResource [] [] [1] rfl rfl

/-! ## RecomputeEngine: the update/commit/cancel protocol

Modelled from the spec: the class implementing the update() scheduling
protocol (GeometryFactory, imported by the test suite in the sources as
src/commands/Factory) is not among the given source files; only its test
suite and subclasses are.  The state machine below follows spec section 4.1
(and sections 3, 5, 7): phases Idle / Running / RunningWithPending /
Reverting, snapshot of tracked parameters on success, revert plus one
silent resynchronization call on failure, coalescing of update() calls that
arrive while a backend call is in flight, and a fatal condition when the
resynchronization call itself fails.

Asynchrony is modelled by a trace of events consumed by a small-step
function: updateCall is a call of update(), settleOk / settleErr is the
settling of the one in-flight backend call.  Each update() call returns a
promise identified by a ticket (nextTicket); waiting holds tickets of
promises not yet resolved, resolved the tickets resolved successfully
(failures are never propagated to update() callers, so there is no
rejection channel).  outstanding counts in-flight backend calls: it is
incremented at each dispatch and decremented at each settle.  dispatchLog
records, per dispatched backend call and in dispatch order, the parameter
state the call reads. -/

inductive RecomputePhase where
  | Idle
  | Running
  | RunningWithPending
  | Reverting
deriving DecidableEq

structure RecomputeEngine (K : Type) (V : Type) [DecidableEq K] where
  params : K → V
  tracked : List K
  lastGood : Option (K → V)
  callCount : Nat
  phase : RecomputePhase
  fatalError : Bool
  outstanding : Nat
  dispatchLog : List (K → V)
  nextTicket : Nat
  waiting : List Nat
  resolved : List Nat

variable {K V : Type} [DecidableEq K]

/-- Issue one backend call through doUpdate: increment callCount, one more
call is outstanding, and the call reads the current parameters. -/
def RecomputeEngine.dispatch (e : RecomputeEngine K V) : RecomputeEngine K V :=
  { e with
    callCount := e.callCount + 1
    outstanding := e.outstanding + 1
    dispatchLog := e.dispatchLog ++ [e.params] }

/-- Restore every tracked name to its value in the snapshot, leaving other
parameters alone (spec section 4.1 step 4). -/
def restoreTracked (tracked : List K) (snap current : K → V) : K → V :=
  fun k => if k ∈ tracked then snap k else current k

inductive RecomputeEvent where
  | updateCall
  | settleOk
  | settleErr
deriving DecidableEq

/-- One step of the engine.  updateCall: from Idle dispatch at once, while
busy record the pending request (coalescing: no further state change when
already RunningWithPending).  settleOk: snapshot the tracked parameters
into lastGood; dispatch the single trailing call if one is pending,
otherwise go Idle and resolve every waiting promise.  settleErr: restore
tracked parameters from lastGood (no-op without a snapshot), dispatch the
one silent resynchronization call and enter Reverting; a failure of the
resynchronization call itself is the fatal condition of spec section 7,
after which the engine stops. -/
def RecomputeEngine.step (e : RecomputeEngine K V) (ev : RecomputeEvent) :
    RecomputeEngine K V :=
  if e.fatalError then e else
  match ev with
  | RecomputeEvent.updateCall =>
    let e1 := { e with
      nextTicket := e.nextTicket + 1
      waiting := e.waiting ++ [e.nextTicket] }
    match e.phase with
    | RecomputePhase.Idle => RecomputeEngine.dispatch { e1 with phase := RecomputePhase.Running }
    | RecomputePhase.Running => { e1 with phase := RecomputePhase.RunningWithPending }
    | RecomputePhase.RunningWithPending => e1
    | RecomputePhase.Reverting => { e1 with phase := RecomputePhase.RunningWithPending }
  | RecomputeEvent.settleOk =>
    match e.phase with
    | RecomputePhase.Idle => e
    | RecomputePhase.Running =>
      { e with
        lastGood := some e.params
        outstanding := e.outstanding - 1
        phase := RecomputePhase.Idle
        resolved := e.resolved ++ e.waiting
        waiting := [] }
    | RecomputePhase.RunningWithPending =>
      RecomputeEngine.dispatch { e with
        lastGood := some e.params
        outstanding := e.outstanding - 1
        phase := RecomputePhase.Running }
    | RecomputePhase.Reverting =>
      { e with
        lastGood := some e.params
        outstanding := e.outstanding - 1
        phase := RecomputePhase.Idle
        resolved := e.resolved ++ e.waiting
        waiting := [] }
  | RecomputeEvent.settleErr =>
    match e.phase with
    | RecomputePhase.Idle => e
    | RecomputePhase.Running | RecomputePhase.RunningWithPending =>
      RecomputeEngine.dispatch { e with
        params :=
          match e.lastGood with
          | some g => restoreTracked e.tracked g e.params
          | none => e.params
        outstanding := e.outstanding - 1
        phase := RecomputePhase.Reverting }
    | RecomputePhase.Reverting =>
      { e with outstanding := e.outstanding - 1, fatalError := true }

/-- Consume a trace of events. -/
def RecomputeEngine.run (e : RecomputeEngine K V) (evs : List RecomputeEvent) :
    RecomputeEngine K V :=
  evs.foldl RecomputeEngine.step e

/-- A freshly constructed engine: Idle, no snapshot, no calls issued. -/
def RecomputeEngine.initial (params : K → V) (tracked : List K) : RecomputeEngine K V :=
  { params := params
    tracked := tracked
    lastGood := none
    callCount := 0
    phase := RecomputePhase.Idle
    fatalError := false
    outstanding := 0
    dispatchLog := []
    nextTicket := 0
    waiting := []
    resolved := [] }

/-- The FakeFactory of the test suite: one tracked key, revertOnError. -/
def fakeFactory : RecomputeEngine String Int :=
  RecomputeEngine.initial (fun _ => 0) ["revertOnError"]

example :
    (fakeFactory.run [RecomputeEvent.updateCall, RecomputeEvent.settleOk]).callCount = 1 := by
  rfl

example :
    (fakeFactory.run
      (List.replicate 7 RecomputeEvent.updateCall
        ++ [RecomputeEvent.settleOk, RecomputeEvent.settleOk])).callCount = 2 := by
  rfl

example :
    (fakeFactory.run
      [RecomputeEvent.updateCall, RecomputeEvent.updateCall,
       RecomputeEvent.settleErr, RecomputeEvent.settleOk]).callCount = 2 := by
  rfl

example :
    (fakeFactory.run
      [RecomputeEvent.updateCall, RecomputeEvent.settleOk,
       RecomputeEvent.updateCall, RecomputeEvent.settleOk]).callCount = 2 := by
  rfl

example :
    (let afterFirst :=
      ({ fakeFactory with params := fun _ => 1 }).run
        [RecomputeEvent.updateCall, RecomputeEvent.settleOk]
    let mutated := { afterFirst with params := fun _ => 2 }
    let final := mutated.run [RecomputeEvent.updateCall, RecomputeEvent.settleErr, RecomputeEvent.settleOk]
    final.callCount = 3 ∧ final.params "revertOnError" = 1) := by
  exact ⟨rfl, rfl⟩

theorem RecomputeEngine.run_nil (e : RecomputeEngine K V) : e.run [] = e := rfl

theorem RecomputeEngine.run_cons (e : RecomputeEngine K V) (ev : RecomputeEvent)
    (evs : List RecomputeEvent) : e.run (ev :: evs) = (e.step ev).run evs := rfl

theorem RecomputeEngine.run_append (e : RecomputeEngine K V)
    (l1 l2 : List RecomputeEvent) : e.run (l1 ++ l2) = (e.run l1).run l2 := by
  simp [RecomputeEngine.run, List.foldl_append]

theorem RecomputeEngine.step_fatal (e : RecomputeEngine K V) (ev : RecomputeEvent)
    (hf : e.fatalError = true) : e.step ev = e := by
  simp [RecomputeEngine.step, hf]

theorem RecomputeEngine.step_upd_idle (e : RecomputeEngine K V)
    (h1 : e.phase = RecomputePhase.Idle) (h2 : e.fatalError = false) :
    e.step RecomputeEvent.updateCall
      = RecomputeEngine.dispatch
          { e with
            nextTicket := e.nextTicket + 1
            waiting := e.waiting ++ [e.nextTicket]
            phase := RecomputePhase.Running } := by
  simp [RecomputeEngine.step, h1, h2]

theorem RecomputeEngine.step_upd_running (e : RecomputeEngine K V)
    (h1 : e.phase = RecomputePhase.Running) (h2 : e.fatalError = false) :
    e.step RecomputeEvent.updateCall
      = { e with
          nextTicket := e.nextTicket + 1
          waiting := e.waiting ++ [e.nextTicket]
          phase := RecomputePhase.RunningWithPending } := by
  simp [RecomputeEngine.step, h1, h2]

theorem RecomputeEngine.step_upd_rwp (e : RecomputeEngine K V)
    (h1 : e.phase = RecomputePhase.RunningWithPending) (h2 : e.fatalError = false) :
    e.step RecomputeEvent.updateCall
      = { e with
          nextTicket := e.nextTicket + 1
          waiting := e.waiting ++ [e.nextTicket] } := by
  simp [RecomputeEngine.step, h1, h2]

theorem RecomputeEngine.step_upd_reverting (e : RecomputeEngine K V)
    (h1 : e.phase = RecomputePhase.Reverting) (h2 : e.fatalError = false) :
    e.step RecomputeEvent.updateCall
      = { e with
          nextTicket := e.nextTicket + 1
          waiting := e.waiting ++ [e.nextTicket]
          phase := RecomputePhase.RunningWithPending } := by
  simp [RecomputeEngine.step, h1, h2]

theorem RecomputeEngine.step_ok_idle (e : RecomputeEngine K V)
    (h1 : e.phase = RecomputePhase.Idle) (h2 : e.fatalError = false) :
    e.step RecomputeEvent.settleOk = e := by
  simp [RecomputeEngine.step, h1, h2]

theorem RecomputeEngine.step_ok_running (e : RecomputeEngine K V)
    (h1 : e.phase = RecomputePhase.Running) (h2 : e.fatalError = false) :
    e.step RecomputeEvent.settleOk
      = { e with
          lastGood := some e.params
          outstanding := e.outstanding - 1
          phase := RecomputePhase.Idle
          resolved := e.resolved ++ e.waiting
          waiting := [] } := by
  simp [RecomputeEngine.step, h1, h2]

theorem RecomputeEngine.step_ok_rwp (e : RecomputeEngine K V)
    (h1 : e.phase = RecomputePhase.RunningWithPending) (h2 : e.fatalError = false) :
    e.step RecomputeEvent.settleOk
      = RecomputeEngine.dispatch
          { e with
            lastGood := some e.params
            outstanding := e.outstanding - 1
            phase := RecomputePhase.Running } := by
  simp [RecomputeEngine.step, h1, h2]

theorem RecomputeEngine.step_ok_reverting (e : RecomputeEngine K V)
    (h1 : e.phase = RecomputePhase.Reverting) (h2 : e.fatalError = false) :
    e.step RecomputeEvent.settleOk
      = { e with
          lastGood := some e.params
          outstanding := e.outstanding - 1
          phase := RecomputePhase.Idle
          resolved := e.resolved ++ e.waiting
          waiting := [] } := by
  simp [RecomputeEngine.step, h1, h2]

theorem RecomputeEngine.step_err_idle (e : RecomputeEngine K V)
    (h1 : e.phase = RecomputePhase.Idle) (h2 : e.fatalError = false) :
    e.step RecomputeEvent.settleErr = e := by
  simp [RecomputeEngine.step, h1, h2]

theorem RecomputeEngine.step_err_running (e : RecomputeEngine K V)
    (h1 : e.phase = RecomputePhase.Running) (h2 : e.fatalError = false) :
    e.step RecomputeEvent.settleErr
      = RecomputeEngine.dispatch
          { e with
            params :=
              match e.lastGood with
              | some g => restoreTracked e.tracked g e.params
              | none => e.params
            outstanding := e.outstanding - 1
            phase := RecomputePhase.Reverting } := by
  simp [RecomputeEngine.step, h1, h2]

theorem RecomputeEngine.step_err_rwp (e : RecomputeEngine K V)
    (h1 : e.phase = RecomputePhase.RunningWithPending) (h2 : e.fatalError = false) :
    e.step RecomputeEvent.settleErr
      = RecomputeEngine.dispatch
          { e with
            params :=
              match e.lastGood with
              | some g => restoreTracked e.tracked g e.params
              | none => e.params
            outstanding := e.outstanding - 1
            phase := RecomputePhase.Reverting } := by
  simp [RecomputeEngine.step, h1, h2]

theorem RecomputeEngine.step_err_reverting (e : RecomputeEngine K V)
    (h1 : e.phase = RecomputePhase.Reverting) (h2 : e.fatalError = false) :
    e.step RecomputeEvent.settleErr
      = { e with outstanding := e.outstanding - 1, fatalError := true } := by
  simp [RecomputeEngine.step, h1, h2]

theorem RecomputeEngine.run_replicate_upd_rwp (k : Nat) (e : RecomputeEngine K V)
    (h1 : e.phase = RecomputePhase.RunningWithPending) (h2 : e.fatalError = false) :
    (e.run (List.replicate k RecomputeEvent.updateCall)).phase
        = RecomputePhase.RunningWithPending
    ∧ (e.run (List.replicate k RecomputeEvent.updateCall)).fatalError = false
    ∧ (e.run (List.replicate k RecomputeEvent.updateCall)).callCount = e.callCount
    ∧ (e.run (List.replicate k RecomputeEvent.updateCall)).resolved = e.resolved
    ∧ (e.run (List.replicate k RecomputeEvent.updateCall)).outstanding = e.outstanding
    ∧ (∀ t, t ∈ e.waiting → t ∈ (e.run (List.replicate k RecomputeEvent.updateCall)).waiting) := by
  induction k generalizing e with
  | zero => exact ⟨h1, h2, rfl, rfl, rfl, fun t ht => ht⟩
  | succ k ih =>
    rw [List.replicate_succ, RecomputeEngine.run_cons, RecomputeEngine.step_upd_rwp e h1 h2]
    have step := ih { e with
      nextTicket := e.nextTicket + 1
      waiting := e.waiting ++ [e.nextTicket] } h1 h2
    refine ⟨step.1, step.2.1, step.2.2.1, step.2.2.2.1, step.2.2.2.2.1, ?_⟩
    intro t ht
    exact step.2.2.2.2.2 t (List.mem_append_left _ ht)

theorem RecomputeEngine.ok_ok_from_rwp (f : RecomputeEngine K V)
    (h1 : f.phase = RecomputePhase.RunningWithPending) (h2 : f.fatalError = false) :
    ((f.step RecomputeEvent.settleOk).step RecomputeEvent.settleOk).callCount
        = f.callCount + 1
    ∧ ((f.step RecomputeEvent.settleOk).step RecomputeEvent.settleOk).resolved
        = f.resolved ++ f.waiting := by
  rw [RecomputeEngine.step_ok_rwp f h1 h2]
  rw [RecomputeEngine.step_ok_running
    (RecomputeEngine.dispatch
      { f with
        lastGood := some f.params
        outstanding := f.outstanding - 1
        phase := RecomputePhase.Running }) rfl h2]
  exact ⟨rfl, rfl⟩

/-- C1: coalescing.  From the Idle phase, n back-to-back update() calls
(n at least 2) issued while the first backend call is still unresolved
dispatch exactly one backend call; when that call settles, exactly one
trailing coalesced call is dispatched (total 2, not n), and the promise of
the first update() is still unresolved at that point; when the trailing
call settles the total is still 2 and the first promise is resolved. -/
theorem RecomputeEngine.coalesces_concurrent_updates
    (e : RecomputeEngine K V) (n : Nat) (hn : 2 ≤ n)
    (h1 : e.phase = RecomputePhase.Idle) (h2 : e.fatalError = false)
    (hfresh : e.nextTicket ∉ e.resolved) :
    (e.run (List.replicate n RecomputeEvent.updateCall)).callCount = e.callCount + 1
    ∧ (e.run (List.replicate n RecomputeEvent.updateCall ++ [RecomputeEvent.settleOk])).callCount
        = e.callCount + 2
    ∧ e.nextTicket
        ∉ (e.run (List.replicate n RecomputeEvent.updateCall ++ [RecomputeEvent.settleOk])).resolved
    ∧ (e.run (List.replicate n RecomputeEvent.updateCall
        ++ [RecomputeEvent.settleOk, RecomputeEvent.settleOk])).callCount = e.callCount + 2
    ∧ e.nextTicket
        ∈ (e.run (List.replicate n RecomputeEvent.updateCall
            ++ [RecomputeEvent.settleOk, RecomputeEvent.settleOk])).resolved := by
  obtain ⟨m, rfl⟩ : ∃ m, n = m + 2 := ⟨n - 2, by omega⟩
  have hl : List.replicate (m + 2) RecomputeEvent.updateCall
      = RecomputeEvent.updateCall :: RecomputeEvent.updateCall
        :: List.replicate m RecomputeEvent.updateCall := by
    rw [List.replicate_succ]
    rw [List.replicate_succ]
  have E1def := RecomputeEngine.step_upd_idle e h1 h2
  have E2def := RecomputeEngine.step_upd_running
    (RecomputeEngine.dispatch
      { e with
        nextTicket := e.nextTicket + 1
        waiting := e.waiting ++ [e.nextTicket]
        phase := RecomputePhase.Running }) rfl h2
  have hX1 : ((e.step RecomputeEvent.updateCall).step RecomputeEvent.updateCall).phase
      = RecomputePhase.RunningWithPending := by rw [E1def, E2def]
  have hX2 : ((e.step RecomputeEvent.updateCall).step RecomputeEvent.updateCall).fatalError
      = false := by rw [E1def, E2def]; exact h2
  have hX3 : ((e.step RecomputeEvent.updateCall).step RecomputeEvent.updateCall).callCount
      = e.callCount + 1 := by rw [E1def, E2def]; rfl
  have hX4 : ((e.step RecomputeEvent.updateCall).step RecomputeEvent.updateCall).resolved
      = e.resolved := by rw [E1def, E2def]; rfl
  have hX5 : e.nextTicket
      ∈ ((e.step RecomputeEvent.updateCall).step RecomputeEvent.updateCall).waiting := by
    rw [E1def, E2def]
    show e.nextTicket ∈ (e.waiting ++ [e.nextTicket]) ++ [e.nextTicket + 1]
    simp
  obtain ⟨hph, hfa, hcc, hres, hout, hwait⟩ :=
    RecomputeEngine.run_replicate_upd_rwp m
      ((e.step RecomputeEvent.updateCall).step RecomputeEvent.updateCall) hX1 hX2
  have ht0 : e.nextTicket
      ∈ (((e.step RecomputeEvent.updateCall).step RecomputeEvent.updateCall).run
          (List.replicate m RecomputeEvent.updateCall)).waiting :=
    hwait e.nextTicket hX5
  refine ⟨?_, ?_, ?_, ?_, ?_⟩
  · show ((((e.step RecomputeEvent.updateCall).step RecomputeEvent.updateCall)).run
        (List.replicate m RecomputeEvent.updateCall)).callCount = e.callCount + 1
    rw [hcc, hX3]
  · show ((((e.step RecomputeEvent.updateCall).step RecomputeEvent.updateCall)).run
        (List.replicate m RecomputeEvent.updateCall ++ [RecomputeEvent.settleOk])).callCount
      = e.callCount + 2
    rw [RecomputeEngine.run_append, RecomputeEngine.run_cons, RecomputeEngine.run_nil,
      RecomputeEngine.step_ok_rwp _ hph hfa]
    show ((((e.step RecomputeEvent.updateCall).step RecomputeEvent.updateCall)).run
        (List.replicate m RecomputeEvent.updateCall)).callCount + 1 = e.callCount + 2
    rw [hcc, hX3]
  · show e.nextTicket
      ∉ ((((e.step RecomputeEvent.updateCall).step RecomputeEvent.updateCall)).run
          (List.replicate m RecomputeEvent.updateCall ++ [RecomputeEvent.settleOk])).resolved
    rw [RecomputeEngine.run_append, RecomputeEngine.run_cons, RecomputeEngine.run_nil,
      RecomputeEngine.step_ok_rwp _ hph hfa]
    show e.nextTicket
      ∉ ((((e.step RecomputeEvent.updateCall).step RecomputeEvent.updateCall)).run
          (List.replicate m RecomputeEvent.updateCall)).resolved
    rw [hres, hX4]
    exact hfresh
  · show ((((e.step RecomputeEvent.updateCall).step RecomputeEvent.updateCall)).run
        (List.replicate m RecomputeEvent.updateCall
          ++ [RecomputeEvent.settleOk, RecomputeEvent.settleOk])).callCount = e.callCount + 2
    rw [RecomputeEngine.run_append, RecomputeEngine.run_cons, RecomputeEngine.run_cons,
      RecomputeEngine.run_nil]
    rw [(RecomputeEngine.ok_ok_from_rwp _ hph hfa).1, hcc, hX3]
  · show e.nextTicket
      ∈ ((((e.step RecomputeEvent.updateCall).step RecomputeEvent.updateCall)).run
          (List.replicate m RecomputeEvent.updateCall
            ++ [RecomputeEvent.settleOk, RecomputeEvent.settleOk])).resolved
    rw [RecomputeEngine.run_append, RecomputeEngine.run_cons, RecomputeEngine.run_cons,
      RecomputeEngine.run_nil]
    rw [(RecomputeEngine.ok_ok_from_rwp _ hph hfa).2]
    exact List.mem_append_right _ ht0

/-- C2: error recovery.  For an engine holding a last-known-good snapshot g,
an update() whose backend call rejects advances the call count by exactly 2
(the failing call plus one silent resynchronization call), every tracked
parameter is restored to its snapshot value before the resynchronization
call reads the parameters (the dispatch log records that the resync call
reads exactly the reverted parameter state), and the rejection is not
propagated: once the resynchronization call settles, the promise of the
failing update() is resolved successfully. -/
theorem RecomputeEngine.reverts_and_resyncs_on_failure
    (e : RecomputeEngine K V) (g : K → V)
    (h1 : e.phase = RecomputePhase.Idle) (h2 : e.fatalError = false)
    (hlg : e.lastGood = some g) :
    (e.run [RecomputeEvent.updateCall, RecomputeEvent.settleErr]).callCount
        = e.callCount + 2
    ∧ (∀ k, k ∈ e.tracked →
        (e.run [RecomputeEvent.updateCall, RecomputeEvent.settleErr]).params k = g k)
    ∧ (e.run [RecomputeEvent.updateCall, RecomputeEvent.settleErr]).dispatchLog
        = e.dispatchLog ++ [e.params, restoreTracked e.tracked g e.params]
    ∧ (e.run [RecomputeEvent.updateCall, RecomputeEvent.settleErr,
        RecomputeEvent.settleOk]).callCount = e.callCount + 2
    ∧ e.nextTicket
        ∈ (e.run [RecomputeEvent.updateCall, RecomputeEvent.settleErr,
            RecomputeEvent.settleOk]).resolved := by
  have E1def := RecomputeEngine.step_upd_idle e h1 h2
  have E2def := RecomputeEngine.step_err_running
    (RecomputeEngine.dispatch
      { e with
        nextTicket := e.nextTicket + 1
        waiting := e.waiting ++ [e.nextTicket]
        phase := RecomputePhase.Running }) rfl h2
  have hY_cc : ((e.step RecomputeEvent.updateCall).step RecomputeEvent.settleErr).callCount
      = e.callCount + 2 := by rw [E1def, E2def]; rfl
  have hY_params : ((e.step RecomputeEvent.updateCall).step RecomputeEvent.settleErr).params
      = restoreTracked e.tracked g e.params := by
    rw [E1def, E2def]
    simp only [RecomputeEngine.dispatch, hlg]
  have hY_dlog : ((e.step RecomputeEvent.updateCall).step RecomputeEvent.settleErr).dispatchLog
      = e.dispatchLog ++ [e.params, restoreTracked e.tracked g e.params] := by
    rw [E1def, E2def]
    simp only [RecomputeEngine.dispatch, hlg]
    simp
  have hY_phase : ((e.step RecomputeEvent.updateCall).step RecomputeEvent.settleErr).phase
      = RecomputePhase.Reverting := by rw [E1def, E2def]; rfl
  have hY_fatal : ((e.step RecomputeEvent.updateCall).step RecomputeEvent.settleErr).fatalError
      = false := by rw [E1def, E2def]; exact h2
  have hY_res : ((e.step RecomputeEvent.updateCall).step RecomputeEvent.settleErr).resolved
      = e.resolved := by rw [E1def, E2def]; rfl
  have hY_wait : e.nextTicket
      ∈ ((e.step RecomputeEvent.updateCall).step RecomputeEvent.settleErr).waiting := by
    rw [E1def, E2def]
    show e.nextTicket ∈ e.waiting ++ [e.nextTicket]
    simp
  refine ⟨hY_cc, ?_, hY_dlog, ?_, ?_⟩
  · intro k hk
    show ((e.step RecomputeEvent.updateCall).step RecomputeEvent.settleErr).params k = g k
    rw [hY_params]
    simp [restoreTracked, hk]
  · show (((e.step RecomputeEvent.updateCall).step RecomputeEvent.settleErr).step
        RecomputeEvent.settleOk).callCount = e.callCount + 2
    rw [RecomputeEngine.step_ok_reverting _ hY_phase hY_fatal]
    exact hY_cc
  · show e.nextTicket
      ∈ (((e.step RecomputeEvent.updateCall).step RecomputeEvent.settleErr).step
          RecomputeEvent.settleOk).resolved
    rw [RecomputeEngine.step_ok_reverting _ hY_phase hY_fatal]
    show e.nextTicket
      ∈ ((e.step RecomputeEvent.updateCall).step RecomputeEvent.settleErr).resolved
        ++ ((e.step RecomputeEvent.updateCall).step RecomputeEvent.settleErr).waiting
    exact List.mem_append_right _ hY_wait

/-- The trace of m non-overlapping update() calls: each returned promise is
awaited (its backend call settles) before the next update() is made. -/
def serialTrace : Nat → List RecomputeEvent
  | 0 => []
  | Nat.succ m => RecomputeEvent.updateCall :: RecomputeEvent.settleOk :: serialTrace m

theorem RecomputeEngine.run_serialTrace (m : Nat) (e : RecomputeEngine K V)
    (h1 : e.phase = RecomputePhase.Idle) (h2 : e.fatalError = false)
    (h3 : e.waiting = []) :
    (e.run (serialTrace m)).callCount = e.callCount + m
    ∧ (e.run (serialTrace m)).phase = RecomputePhase.Idle
    ∧ (e.run (serialTrace m)).fatalError = false
    ∧ (e.run (serialTrace m)).waiting = []
    ∧ (e.run (serialTrace m)).nextTicket = e.nextTicket + m
    ∧ (e.run (serialTrace m)).resolved
        = e.resolved ++ (List.range m).map (fun i => e.nextTicket + i) := by
  induction m generalizing e with
  | zero => exact ⟨rfl, h1, h2, h3, rfl, by simp [serialTrace, RecomputeEngine.run]⟩
  | succ m ih =>
    have E1def := RecomputeEngine.step_upd_idle e h1 h2
    have E2def := RecomputeEngine.step_ok_running
      (RecomputeEngine.dispatch
        { e with
          nextTicket := e.nextTicket + 1
          waiting := e.waiting ++ [e.nextTicket]
          phase := RecomputePhase.Running }) rfl h2
    have hZ1 : ((e.step RecomputeEvent.updateCall).step RecomputeEvent.settleOk).phase
        = RecomputePhase.Idle := by rw [E1def, E2def]
    have hZ2 : ((e.step RecomputeEvent.updateCall).step RecomputeEvent.settleOk).fatalError
        = false := by rw [E1def, E2def]; exact h2
    have hZ3 : ((e.step RecomputeEvent.updateCall).step RecomputeEvent.settleOk).waiting
        = [] := by rw [E1def, E2def]
    have hZ4 : ((e.step RecomputeEvent.updateCall).step RecomputeEvent.settleOk).callCount
        = e.callCount + 1 := by rw [E1def, E2def]; rfl
    have hZ5 : ((e.step RecomputeEvent.updateCall).step RecomputeEvent.settleOk).nextTicket
        = e.nextTicket + 1 := by rw [E1def, E2def]; rfl
    have hZ6 : ((e.step RecomputeEvent.updateCall).step RecomputeEvent.settleOk).resolved
        = e.resolved ++ [e.nextTicket] := by
      rw [E1def, E2def]
      show e.resolved ++ (e.waiting ++ [e.nextTicket]) = e.resolved ++ [e.nextTicket]
      rw [h3]
      rfl
    obtain ⟨ih1, ih2, ih3, ih4, ih5, ih6⟩ :=
      ih ((e.step RecomputeEvent.updateCall).step RecomputeEvent.settleOk) hZ1 hZ2 hZ3
    have hrun : e.run (serialTrace (m + 1))
        = ((e.step RecomputeEvent.updateCall).step RecomputeEvent.settleOk).run
            (serialTrace m) := rfl
    rw [hrun]
    refine ⟨?_, ih2, ih3, ih4, ?_, ?_⟩
    · rw [ih1, hZ4]
      omega
    · rw [ih5, hZ5]
      omega
    · rw [ih6, hZ6, hZ5]
      have hmap : (List.range (m + 1)).map (fun i => e.nextTicket + i)
          = e.nextTicket :: (List.range m).map (fun i => e.nextTicket + 1 + i) := by
        rw [List.range_succ_eq_map]
        simp only [List.map_cons, List.map_map]
        refine congrArg₂ _ (by omega) ?_
        refine List.map_congr_left ?_
        intro a _
        show e.nextTicket + (a + 1) = e.nextTicket + 1 + a
        omega
      rw [hmap]
      simp

/-- C3: serial correctness.  For m non-overlapping update() calls (each
settled before the next is made), the number of backend calls equals m, the
engine ends Idle, and the promise of round j is resolved exactly once its
own single backend call has settled: after the full run every ticket of a
completed round is resolved, and no ticket of a round that has not yet
happened is (running any prefix of j rounds, which is again serialTrace j,
shows each promise unresolved before its round and resolved after it). -/
theorem RecomputeEngine.serial_updates (m : Nat) (e : RecomputeEngine K V)
    (h1 : e.phase = RecomputePhase.Idle) (h2 : e.fatalError = false)
    (h3 : e.waiting = []) (hfresh : ∀ t, t ∈ e.resolved → t < e.nextTicket) :
    (e.run (serialTrace m)).callCount = e.callCount + m
    ∧ (e.run (serialTrace m)).phase = RecomputePhase.Idle
    ∧ (∀ j, j < m → e.nextTicket + j ∈ (e.run (serialTrace m)).resolved)
    ∧ (∀ j, m ≤ j → e.nextTicket + j ∉ (e.run (serialTrace m)).resolved) := by
  obtain ⟨hc, hp, hf, hw, hn, hres⟩ := RecomputeEngine.run_serialTrace m e h1 h2 h3
  refine ⟨hc, hp, ?_, ?_⟩
  · intro j hj
    rw [hres]
    refine List.mem_append_right _ ?_
    simp only [List.mem_map, List.mem_range]
    exact ⟨j, hj, rfl⟩
  · intro j hj hmem
    rw [hres] at hmem
    rcases List.mem_append.mp hmem with hin | hin
    · have := hfresh _ hin
      omega
    · simp only [List.mem_map, List.mem_range] at hin
      obtain ⟨i, hi, hieq⟩ := hin
      omega

/-- The serialization invariant: never more than one backend call in
flight, and an Idle engine has none in flight. -/
def RecomputeSerialized (e : RecomputeEngine K V) : Prop :=
  e.outstanding ≤ 1 ∧ (e.phase = RecomputePhase.Idle → e.outstanding = 0)

theorem RecomputeEngine.step_preserves_serialized (e : RecomputeEngine K V)
    (ev : RecomputeEvent) (h : RecomputeSerialized e) :
    RecomputeSerialized (e.step ev) := by
  obtain ⟨ha, hb⟩ := h
  cases hf : e.fatalError with
  | true => rw [RecomputeEngine.step_fatal e ev hf]; exact ⟨ha, hb⟩
  | false =>
    cases ev with
    | updateCall =>
      cases hp : e.phase with
      | Idle =>
        rw [RecomputeEngine.step_upd_idle e hp hf]
        have h0 := hb hp
        refine ⟨?_, ?_⟩
        · show e.outstanding + 1 ≤ 1
          omega
        · intro hc
          simp [RecomputeEngine.dispatch] at hc
      | Running =>
        rw [RecomputeEngine.step_upd_running e hp hf]
        exact ⟨ha, fun hc => by simp at hc⟩
      | RunningWithPending =>
        rw [RecomputeEngine.step_upd_rwp e hp hf]
        refine ⟨ha, ?_⟩
        intro hc
        show e.outstanding = 0
        rw [show ({ e with
            nextTicket := e.nextTicket + 1
            waiting := e.waiting ++ [e.nextTicket] } : RecomputeEngine K V).phase
          = e.phase from rfl, hp] at hc
        cases hc
      | Reverting =>
        rw [RecomputeEngine.step_upd_reverting e hp hf]
        exact ⟨ha, fun hc => by simp at hc⟩
    | settleOk =>
      cases hp : e.phase with
      | Idle =>
        rw [RecomputeEngine.step_ok_idle e hp hf]
        exact ⟨ha, hb⟩
      | Running =>
        rw [RecomputeEngine.step_ok_running e hp hf]
        refine ⟨?_, ?_⟩
        · show e.outstanding - 1 ≤ 1
          omega
        · intro _
          show e.outstanding - 1 = 0
          omega
      | RunningWithPending =>
        rw [RecomputeEngine.step_ok_rwp e hp hf]
        refine ⟨?_, ?_⟩
        · show e.outstanding - 1 + 1 ≤ 1
          omega
        · intro hc
          simp [RecomputeEngine.dispatch] at hc
      | Reverting =>
        rw [RecomputeEngine.step_ok_reverting e hp hf]
        refine ⟨?_, ?_⟩
        · show e.outstanding - 1 ≤ 1
          omega
        · intro _
          show e.outstanding - 1 = 0
          omega
    | settleErr =>
      cases hp : e.phase with
      | Idle =>
        rw [RecomputeEngine.step_err_idle e hp hf]
        exact ⟨ha, hb⟩
      | Running =>
        rw [RecomputeEngine.step_err_running e hp hf]
        refine ⟨?_, ?_⟩
        · show e.outstanding - 1 + 1 ≤ 1
          omega
        · intro hc
          simp [RecomputeEngine.dispatch] at hc
      | RunningWithPending =>
        rw [RecomputeEngine.step_err_rwp e hp hf]
        refine ⟨?_, ?_⟩
        · show e.outstanding - 1 + 1 ≤ 1
          omega
        · intro hc
          simp [RecomputeEngine.dispatch] at hc
      | Reverting =>
        rw [RecomputeEngine.step_err_reverting e hp hf]
        refine ⟨?_, ?_⟩
        · show e.outstanding - 1 ≤ 1
          omega
        · intro _
          show e.outstanding - 1 = 0
          omega

/-- C6: serialization.  Along every event trace from a state satisfying the
serialization invariant (at most one backend call outstanding, none when
Idle), the invariant is preserved and at most one backend call is
outstanding.  Every instant of a trace is the final state of one of its
prefixes, and a prefix of a trace is itself a trace, so instantiating this
theorem at each prefix shows that backend calls of one engine never
overlap: a new call is only dispatched in the same step in which the
in-flight call settles (the trailing and resynchronization dispatches) or
from Idle, where nothing is in flight. -/
theorem RecomputeEngine.at_most_one_outstanding (e : RecomputeEngine K V)
    (evs : List RecomputeEvent) (h : RecomputeSerialized e) :
    RecomputeSerialized (e.run evs) ∧ (e.run evs).outstanding ≤ 1 := by
  induction evs generalizing e with
  | nil => exact ⟨h, h.1⟩
  | cons ev rest ih =>
    rw [RecomputeEngine.run_cons]
    exact ih (e.step ev) (RecomputeEngine.step_preserves_serialized e ev h)

/-- C6 witness: the invariant theorem applied to the test-suite engine and
a concrete trace of seven interleaved update() calls and two settlings. -/
theorem RecomputeEngine.at_most_one_outstanding_witness :
    (fakeFactory.run
      (List.replicate 7 RecomputeEvent.updateCall
        ++ [RecomputeEvent.settleOk, RecomputeEvent.settleOk])).outstanding ≤ 1 :=
  (RecomputeEngine.at_most_one_outstanding fakeFactory
    (List.replicate 7 RecomputeEvent.updateCall
      ++ [RecomputeEvent.settleOk, RecomputeEvent.settleOk])
    ⟨by decide, fun _ => by decide⟩).2

/-- C1 witness: the coalescing theorem applied to the test-suite engine
with seven back-to-back update() calls, as in the test named does not
enqueue multiple updates: exactly 2 backend calls in total. -/
theorem RecomputeEngine.coalesces_concurrent_updates_witness :
    (fakeFactory.run
      (List.replicate 7 RecomputeEvent.updateCall
        ++ [RecomputeEvent.settleOk, RecomputeEvent.settleOk])).callCount
      = fakeFactory.callCount + 2 :=
  (RecomputeEngine.coalesces_concurrent_updates fakeFactory 7
    (by decide) rfl rfl (by decide)).2.2.2.1

/-- C2 witness: the revert theorem applied to an engine whose snapshot
tracks revertOnError at 1 while the parameter was changed to 2, as in the
test named in case of error, it reverts to last successful parameter. -/
theorem RecomputeEngine.reverts_and_resyncs_on_failure_witness :
    (({ fakeFactory with
        params := fun _ => (2 : Int)
        lastGood := some (fun _ => 1)
        callCount := 1 } : RecomputeEngine String Int).run
      [RecomputeEvent.updateCall, RecomputeEvent.settleErr]).callCount
      = ({ fakeFactory with
          params := fun _ => (2 : Int)
          lastGood := some (fun _ => 1)
          callCount := 1 } : RecomputeEngine String Int).callCount + 2 :=
  (RecomputeEngine.reverts_and_resyncs_on_failure
    ({ fakeFactory with
        params := fun _ => (2 : Int)
        lastGood := some (fun _ => 1)
        callCount := 1 } : RecomputeEngine String Int)
    (fun _ => 1) rfl rfl rfl).1

/-- C3 witness: the serial theorem applied to the test-suite engine and two
rounds, as in the test named works serially: call count 2. -/
theorem RecomputeEngine.serial_updates_witness :
    (fakeFactory.run (serialTrace 2)).callCount = fakeFactory.callCount + 2 :=
  (RecomputeEngine.serial_updates 2 fakeFactory rfl rfl rfl
    (fun t ht => absurd ht (List.not_mem_nil t))).1

/-! ## TranslateFactory: MoveFactory, RotateFactory, ScaleFactory

From the source file defining TranslateFactory and its three subclasses.
Coordinates are exact rationals standing in for the double-precision
numbers of the source; the numeric literal 10e-6 is 10/1000000. -/

/-- A THREE.Vector3. -/
structure Vec3 where
  x : ℚ
  y : ℚ
  z : ℚ
deriving DecidableEq

/-- THREE.Vector3.manhattanLength(): the sum of absolute coordinates. -/
def Vec3.manhattanLength (v : Vec3) : ℚ := |v.x| + |v.y| + |v.z|

/-- A THREE.Quaternion as its four components. -/
structure Quat where
  x : ℚ
  y : ℚ
  z : ℚ
  w : ℚ
deriving DecidableEq

/-- The GeometryFactory error taxonomy imported by the factories
(NoOpError, ValidationError from the GeometryFactory module). -/
inductive FactoryError where
  | noOp
  | validation
deriving DecidableEq

/-- The c3d.TransformValues each transform getter builds, by shape: a move
by a vector, a rotation about an axis through a pivot, or a scaling about
a pivot. -/
inductive TransformValues where
  | move (vec : Vec3)
  | rotation (pivot axis : Vec3) (angle : ℚ)
  | scaling (sx sy sz : ℚ) (pivot : Vec3)
deriving DecidableEq

/-- source: MoveFactory.transform.  Throws NoOpError when the move vector
has manhattan length below 10e-6, otherwise builds the move transform. -/
def MoveFactory.transform (move : Vec3) : Except FactoryError TransformValues :=
  if move.manhattanLength < 10 / 1000000 then Except.error FactoryError.noOp
  else Except.ok (TransformValues.move move)

/-- source: RotateFactory.transform.  Throws NoOpError when angle is 0,
otherwise builds the rotation transform from pivot, axis and angle. -/
def RotateFactory.transform (pivot axis : Vec3) (angle : ℚ) :
    Except FactoryError TransformValues :=
  if angle = 0 then Except.error FactoryError.noOp
  else Except.ok (TransformValues.rotation pivot axis angle)

/-- source: ScaleFactory.transform.  Throws NoOpError when scale equals the
identity vector (1,1,1), otherwise builds the scaling transform. -/
def ScaleFactory.transform (scale pivot : Vec3) : Except FactoryError TransformValues :=
  if scale = ⟨1, 1, 1⟩ then Except.error FactoryError.noOp
  else Except.ok (TransformValues.scaling scale.x scale.y scale.z pivot)

/-- A visual item as the factories touch it: position, quaternion, scale. -/
structure VisualItem where
  position : Vec3
  quaternion : Quat
  scale : Vec3
deriving DecidableEq

/-- source: TranslateFactory.doUpdate.  The matrix getter evaluates the
transform getter first; a NoOpError thrown there propagates before any
visual mutation or backend work happens.  Otherwise the matrix is
decomposed onto every item (applyMatrix abstracts matrix.decompose). -/
def TranslateFactory.doUpdate (α : Type)
    (transform : Except FactoryError TransformValues)
    (applyMatrix : TransformValues → α → α) (items : List α) :
    Except FactoryError (List α) :=
  match transform with
  | Except.error err => Except.error err
  | Except.ok t => Except.ok (items.map (applyMatrix t))

/-- source: TranslateFactory.doCancel.  Sets every item's position to
(0,0,0), quaternion to (0,0,0,1) and scale to (1,1,1). -/
def TranslateFactory.doCancel (items : List VisualItem) : List VisualItem :=
  items.map fun it =>
    { it with
      position := ⟨0, 0, 0⟩
      quaternion := ⟨0, 0, 0, 1⟩
      scale := ⟨1, 1, 1⟩ }

/-- C7: the NoOpError conditions.  MoveFactory.transform throws NoOpError
exactly when the move vector's manhattan length is below 10e-6;
RotateFactory.transform exactly when the angle is 0; ScaleFactory.transform
exactly when the scale is (1,1,1); and a transform that throws makes
doUpdate fail with that same error before any item is touched or backend
call shaped (the error short-circuits doUpdate). -/
theorem noOp_conditions :
    (∀ move : Vec3,
        MoveFactory.transform move = Except.error FactoryError.noOp
          ↔ move.manhattanLength < 10 / 1000000)
    ∧ (∀ (pivot axis : Vec3) (angle : ℚ),
        RotateFactory.transform pivot axis angle = Except.error FactoryError.noOp
          ↔ angle = 0)
    ∧ (∀ scale pivot : Vec3,
        ScaleFactory.transform scale pivot = Except.error FactoryError.noOp
          ↔ scale = ⟨1, 1, 1⟩)
    ∧ (∀ (α : Type) (tv : Except FactoryError TransformValues)
        (applyMatrix : TransformValues → α → α) (items : List α) (err : FactoryError),
        tv = Except.error err →
        TranslateFactory.doUpdate α tv applyMatrix items = Except.error err) := by
  refine ⟨?_, ?_, ?_, ?_⟩
  · intro move
    by_cases h : move.manhattanLength < 10 / 1000000 <;>
      simp [MoveFactory.transform, h]
  · intro pivot axis angle
    by_cases h : angle = 0 <;> simp [RotateFactory.transform, h]
  · intro scale pivot
    by_cases h : scale = (⟨1, 1, 1⟩ : Vec3) <;> simp [ScaleFactory.transform, h]
  · intro α tv applyMatrix items err htv
    rw [htv]
    rfl

/-- C7 witness: the fourth part of the condition theorem applied to a
throwing transform and a concrete item list. -/
theorem noOp_conditions_witness :
    TranslateFactory.doUpdate VisualItem (Except.error FactoryError.noOp)
      (fun _ it => it) [] = Except.error FactoryError.noOp :=
  noOp_conditions.2.2.2 VisualItem (Except.error FactoryError.noOp)
    (fun _ it => it) [] FactoryError.noOp rfl

/-- C8: cancel restores the pre-operation baseline and is safe without any
prior update.  doCancel is a total function of the current items alone (it
consults no snapshot and no engine state, so it is well defined even if
update() never ran); it sets every item's position to (0,0,0), quaternion
to the identity (0,0,0,1) and scale to (1,1,1); it touches every item (the
item count is preserved) and it is idempotent: cancelling twice equals
cancelling once. -/
theorem TranslateFactory.doCancel_restores_baseline :
    (∀ items : List VisualItem, ∀ it, it ∈ TranslateFactory.doCancel items →
        it.position = ⟨0, 0, 0⟩ ∧ it.quaternion = ⟨0, 0, 0, 1⟩ ∧ it.scale = ⟨1, 1, 1⟩)
    ∧ (∀ items : List VisualItem,
        (TranslateFactory.doCancel items).length = items.length)
    ∧ (∀ items : List VisualItem,
        TranslateFactory.doCancel (TranslateFactory.doCancel items)
          = TranslateFactory.doCancel items) := by
  refine ⟨?_, ?_, ?_⟩
  · intro items it hit
    simp only [TranslateFactory.doCancel, List.mem_map] at hit
    obtain ⟨a, _, rfl⟩ := hit
    exact ⟨rfl, rfl, rfl⟩
  · intro items
    simp [TranslateFactory.doCancel]
  · intro items
    simp only [TranslateFactory.doCancel, List.map_map]
    exact List.map_congr_left fun a _ => rfl

/-- C8 witness: the baseline theorem applied to a one-item list whose item
starts away from the origin. -/
theorem TranslateFactory.doCancel_restores_baseline_witness :
    (⟨⟨0, 0, 0⟩, ⟨0, 0, 0, 1⟩, ⟨1, 1, 1⟩⟩ : VisualItem).position = ⟨0, 0, 0⟩
    ∧ (⟨⟨0, 0, 0⟩, ⟨0, 0, 0, 1⟩, ⟨1, 1, 1⟩⟩ : VisualItem).quaternion = ⟨0, 0, 0, 1⟩
    ∧ (⟨⟨0, 0, 0⟩, ⟨0, 0, 0, 1⟩, ⟨1, 1, 1⟩⟩ : VisualItem).scale = ⟨1, 1, 1⟩ :=
  TranslateFactory.doCancel_restores_baseline.1
    [⟨⟨5, 2, 3⟩, ⟨0, 1, 0, 0⟩, ⟨2, 2, 2⟩⟩] ⟨⟨0, 0, 0⟩, ⟨0, 0, 0, 1⟩, ⟨1, 1, 1⟩⟩ (by decide)

/-! ## SnapPresentation

From the source constructor of SnapPresentation: helpers, names and info
computed from the intersections list.  Types of snaps, helper objects,
construction planes, camera orientation / position and the geometric
payload of a SnapResult are opaque parameters. -/

/-- A snap as the presentation reads it: optional helper, optional name. -/
structure Snap (H : Type) where
  helper : Option H
  name : Option String

/-- One entry of the intersections list (SnapResult): the snap plus the
geometric fields that the SnapInfo spread copies, kept abstract as one
payload value. -/
structure SnapResult (H P : Type) where
  snap : Snap H
  payload : P

/-- The camera: its quaternion and position are cloned into the info. -/
structure Camera (Q V : Type) where
  quaternion : Q
  position : V

/-- SnapInfo: the first intersection's own fields together with the
construction plane and the cloned camera orientation and position. -/
structure SnapInfo (H P C Q V : Type) where
  snap : Snap H
  payload : P
  constructionPlane : C
  cameraOrientation : Q
  cameraPosition : V

/-- The SnapIndicator presenter: produces indicator helpers for nearby
points and for the best snap. -/
structure SnapIndicator (PS H P : Type) where
  nearbyIndicatorFor : PS → H
  snapIndicatorFor : SnapResult H P → H

/-- The spread of a JS Set built from a list: duplicates dropped, first
occurrences kept in insertion order. -/
def jsSetDedup : List String → List String
  | [] => []
  | a :: rest => a :: jsSetDedup (rest.filter fun b => b ≠ a)
termination_by l => l.length
decreasing_by
  simp_wf
  exact Nat.lt_succ_of_le (List.length_filter_le _ _)

structure SnapPresentation (H P C Q V : Type) where
  nearby : List H
  info : Option (SnapInfo H P C Q V)
  helpers : List H
  names : List String

/-- source: the SnapPresentation constructor.  Nearby indicators are always
built; with no intersections, names and helpers stay empty and info is
never assigned; otherwise info copies the first (best) intersection plus
the construction plane and cloned camera data, helpers are the activated
helpers, the indicator for the first match, and every defined snap helper,
and names is the sorted spread of the Set of defined snap names. -/
def SnapPresentation.make {H P C Q V PS : Type}
    (nearby : List PS) (intersections : List (SnapResult H P))
    (constructionPlane : C) (camera : Camera Q V)
    (presenter : SnapIndicator PS H P) (activatedHelpers : List H) :
    SnapPresentation H P C Q V :=
  let nearby2 := nearby.map presenter.nearbyIndicatorFor
  match intersections with
  | [] => { nearby := nearby2, info := none, helpers := [], names := [] }
  | first :: _ =>
    { nearby := nearby2
      info := some
        { snap := first.snap
          payload := first.payload
          constructionPlane := constructionPlane
          cameraOrientation := camera.quaternion
          cameraPosition := camera.position }
      helpers := (activatedHelpers ++ [presenter.snapIndicatorFor first])
        ++ intersections.filterMap (fun i => i.snap.helper)
      names := List.insertionSort (fun a b => a ≤ b)
        (jsSetDedup (intersections.filterMap (fun i => i.snap.name))) }

theorem jsSetDedup_mem (l : List String) (x : String) :
    x ∈ jsSetDedup l ↔ x ∈ l := by
  induction l using jsSetDedup.induct with
  | case1 => simp [jsSetDedup]
  | case2 a rest ih =>
    rw [jsSetDedup]
    constructor
    · intro hx
      rcases List.mem_cons.mp hx with h | h
      · exact h ▸ List.mem_cons_self a rest
      · have := ih.mp h
        exact List.mem_cons_of_mem a (List.mem_of_mem_filter this)
    · intro hx
      rcases List.mem_cons.mp hx with h | h
      · exact h ▸ List.mem_cons_self a _
      · by_cases hxa : x = a
        · exact hxa ▸ List.mem_cons_self a _
        · refine List.mem_cons_of_mem a (ih.mpr ?_)
          exact List.mem_filter.mpr ⟨h, by simpa using hxa⟩

theorem jsSetDedup_nodup (l : List String) : (jsSetDedup l).Nodup := by
  induction l using jsSetDedup.induct with
  | case1 => simp [jsSetDedup]
  | case2 a rest ih =>
    rw [jsSetDedup]
    refine List.nodup_cons.mpr ⟨?_, ih⟩
    intro ha
    have := (jsSetDedup_mem _ a).mp ha
    have := List.mem_filter.mp this
    simpa using this.2

/-- C10: SnapPresentation.  With an empty intersections list, names and
helpers are empty and info stays undefined; with a non-empty list, info is
taken from the first intersection (the assumed best match) together with
the construction plane and the cloned camera data, and names is the
duplicate-free, ascending-sorted list of exactly the defined snap names
over all intersections. -/
theorem SnapPresentation.make_spec {H P C Q V PS : Type}
    (nearby : List PS) (intersections : List (SnapResult H P))
    (constructionPlane : C) (camera : Camera Q V)
    (presenter : SnapIndicator PS H P) (activatedHelpers : List H) :
    (intersections = [] →
      (SnapPresentation.make nearby intersections constructionPlane camera
          presenter activatedHelpers).names = []
      ∧ (SnapPresentation.make nearby intersections constructionPlane camera
          presenter activatedHelpers).helpers = []
      ∧ (SnapPresentation.make nearby intersections constructionPlane camera
          presenter activatedHelpers).info = none)
    ∧ (∀ (first : SnapResult H P) (rest : List (SnapResult H P)),
        intersections = first :: rest →
        (SnapPresentation.make nearby intersections constructionPlane camera
            presenter activatedHelpers).info
          = some
            { snap := first.snap
              payload := first.payload
              constructionPlane := constructionPlane
              cameraOrientation := camera.quaternion
              cameraPosition := camera.position }
        ∧ List.Sorted (fun a b : String => a ≤ b)
            (SnapPresentation.make nearby intersections constructionPlane camera
              presenter activatedHelpers).names
        ∧ (SnapPresentation.make nearby intersections constructionPlane camera
            presenter activatedHelpers).names.Nodup
        ∧ (∀ s : String,
            s ∈ (SnapPresentation.make nearby intersections constructionPlane camera
                presenter activatedHelpers).names
              ↔ ∃ r, r ∈ intersections ∧ r.snap.name = some s)) := by
  constructor
  · intro h
    subst h
    exact ⟨rfl, rfl, rfl⟩
  · intro first rest h
    subst h
    refine ⟨rfl, ?_, ?_, ?_⟩
    · exact List.sorted_insertionSort _ _
    · exact (List.perm_insertionSort _ _).nodup_iff.mpr (jsSetDedup_nodup _)
    · intro s
      show s ∈ List.insertionSort (fun a b => a ≤ b)
          (jsSetDedup ((first :: rest).filterMap (fun i => i.snap.name))) ↔ _
      rw [List.mem_insertionSort, jsSetDedup_mem, List.mem_filterMap]

/-- C10 witness: the empty-intersections branch of the theorem at concrete
types. -/
theorem SnapPresentation.make_spec_witness :
    (SnapPresentation.make ([] : List Unit) ([] : List (SnapResult Nat Unit))
        () (⟨(), ()⟩ : Camera Unit Unit)
        (⟨fun _ => 0, fun _ => 0⟩ : SnapIndicator Unit Nat Unit) []).names = []
    ∧ (SnapPresentation.make ([] : List Unit) ([] : List (SnapResult Nat Unit))
        () (⟨(), ()⟩ : Camera Unit Unit)
        (⟨fun _ => 0, fun _ => 0⟩ : SnapIndicator Unit Nat Unit) []).helpers = []
    ∧ (SnapPresentation.make ([] : List Unit) ([] : List (SnapResult Nat Unit))
        () (⟨(), ()⟩ : Camera Unit Unit)
        (⟨fun _ => 0, fun _ => 0⟩ : SnapIndicator Unit Nat Unit) []).info = none :=
  (SnapPresentation.make_spec [] [] () ⟨(), ()⟩ ⟨fun _ => 0, fun _ => 0⟩ []).1 rfl

/-! ## GeometryIdEncoder (GeometryGPUPickingAdapter.ts)

The encoder works on JS numbers with the 32-bit integer operators <<, >>,
bitwise and, bitwise or.  Those operators apply ToInt32 to their operands
and produce signed 32-bit results; they are modelled below on Int by
converting to the unsigned 32-bit pattern, operating on patterns, and
reading the result back as a signed int32 value. -/

/-- The unsigned 32-bit pattern ToUint32 gives an integer. -/
def toUint32 (n : Int) : Nat := (n % (2 ^ 32 : Int)).toNat

/-- Read a 32-bit pattern back as the signed int32 value. -/
def asInt32 (p : Nat) : Int :=
  if p < 2 ^ 31 then (p : Int) else (p : Int) - 2 ^ 32

/-- The JS left shift a << b (b already reduced mod 32). -/
def jsShl (a : Int) (b : Nat) : Int := asInt32 ((toUint32 a <<< b) % 2 ^ 32)

/-- The JS sign-propagating right shift a >> b: arithmetic shift of the
int32 value, i.e. flooring division by 2 ^ b. -/
def jsShr (a : Int) (b : Nat) : Int := Int.fdiv (asInt32 (toUint32 a)) (2 ^ b)

/-- The JS bitwise and on int32 values. -/
def jsAnd (a b : Int) : Int := asInt32 (Nat.land (toUint32 a) (toUint32 b))

/-- The JS bitwise or on int32 values. -/
def jsOr (a b : Int) : Int := asInt32 (Nat.lor (toUint32 a) (toUint32 b))

inductive GeomType where
  | edge
  | face
deriving DecidableEq

/-- The record GeometryIdEncoder.decode returns. -/
structure DecodeResult where
  parentId : Int
  type : Int
  index : Int
deriving DecidableEq

/-- source: GeometryIdEncoder.encode.  Checks the preconditions
parentId <= 2^16 and index <= 2^15 (throwing on violation), then packs
parentId into the high 16 bits, the type bit and the masked high index
bits into the next byte, and the low index byte into the low byte. -/
def GeometryIdEncoder.encode (ty : GeomType) (parentId index : Int) :
    Except String Int :=
  if parentId > 2 ^ 16 then Except.error "precondition failure"
  else if index > 2 ^ 15 then Except.error "precondition failure"
  else
    let parentId2 := jsShl parentId 16
    let c := jsShl (if ty = GeomType.edge then 0 else 1) 7
    let d := jsOr c (jsAnd (jsShr index 8) 0xef)
    let e := jsAnd (jsShr index 0) 255
    Except.ok (jsOr (jsOr parentId2 (jsShl d 8)) e)

/-- source: GeometryIdEncoder.decode. -/
def GeometryIdEncoder.decode (compact : Int) : DecodeResult :=
  let parentId := jsShr compact 16
  let compact2 := jsAnd compact 0xffff
  let ty := jsShr compact2 15
  let index := jsAnd compact2 0x7fff
  { parentId := parentId, type := ty, index := index }

/-- C9 counterexample: the round trip fails inside the domain the claim
asserts (parentId up to 2^16, index up to 2^15).  Three concrete failures:
index 4096 (bit 12 set) is destroyed by the mask 0xef, so decode returns
index 0; index 32768 (= 2^15, accepted by the precondition) bleeds into
the type bit, so an edge decodes as type 1 with index 0; and parentId
40000 (at least 2^15) makes the packed id negative as an int32, so decode
returns parentId -25536 instead of 40000. -/
theorem GeometryIdEncoder.roundtrip_fails :
    (GeometryIdEncoder.encode GeomType.edge 0 4096 = Except.ok 0
      ∧ (GeometryIdEncoder.decode 0).index = 0)
    ∧ (GeometryIdEncoder.encode GeomType.edge 0 32768 = Except.ok 32768
      ∧ (GeometryIdEncoder.decode 32768).type = 1
      ∧ (GeometryIdEncoder.decode 32768).index = 0)
    ∧ (GeometryIdEncoder.encode GeomType.edge 40000 0 = Except.ok (-1673527296)
      ∧ (GeometryIdEncoder.decode (-1673527296)).parentId = -25536) := by
  exact ⟨⟨rfl, by decide⟩, ⟨rfl, by decide, by decide⟩, ⟨rfl, by decide⟩⟩

theorem toUint32_natCast (n : Nat) (h : n < 2 ^ 32) : toUint32 (n : Int) = n := by
  unfold toUint32
  omega

theorem asInt32_small (p : Nat) (h : p < 2 ^ 31) : asInt32 p = (p : Int) := by
  unfold asInt32
  rw [if_pos h]

theorem jsShl_natCast (n b : Nat) (h : n <<< b < 2 ^ 31) (h2 : n < 2 ^ 32) :
    jsShl (n : Int) b = ((n <<< b : Nat) : Int) := by
  unfold jsShl
  rw [toUint32_natCast n h2, Nat.mod_eq_of_lt (by omega), asInt32_small _ h]

theorem jsShr_natCast (n b : Nat) (h : n < 2 ^ 31) :
    jsShr (n : Int) b = ((n >>> b : Nat) : Int) := by
  unfold jsShr
  rw [toUint32_natCast n (by omega), asInt32_small _ h]
  rw [show ((2 : Int) ^ b) = (((2 ^ b : Nat) : Int)) by push_cast; ring]
  rw [← Int.ofNat_fdiv, Nat.shiftRight_eq_div_pow]

theorem jsAnd_natCast (m k : Nat) (hm : m < 2 ^ 31) (hk : k < 2 ^ 31) :
    jsAnd (m : Int) (k : Int) = ((m &&& k : Nat) : Int) := by
  unfold jsAnd
  rw [toUint32_natCast m (by omega), toUint32_natCast k (by omega)]
  exact asInt32_small _ (Nat.lt_of_le_of_lt Nat.and_le_left hm)

theorem jsOr_natCast (m k : Nat) (hm : m < 2 ^ 31) (hk : k < 2 ^ 31) :
    jsOr (m : Int) (k : Int) = ((m ||| k : Nat) : Int) := by
  unfold jsOr
  rw [toUint32_natCast m (by omega), toUint32_natCast k (by omega)]
  exact asInt32_small _ (Nat.or_lt_two_pow hm hk)

/-- Bitwise or of a multiple of 2 ^ k with a number below 2 ^ k is their
sum: the bit ranges are disjoint. -/
theorem lor_two_pow_mul_eq_add (k a x : Nat) (hx : x < 2 ^ k) :
    (2 ^ k * a) ||| x = 2 ^ k * a + x := by
  refine Nat.eq_of_testBit_eq fun j => ?_
  rw [Nat.testBit_lor]
  rcases Nat.lt_or_ge j k with hj | hj
  · have h1 : (2 ^ k * a).testBit j = false := by
      rw [Nat.mul_comm, ← Nat.shiftLeft_eq, Nat.testBit_shiftLeft]
      simp [Nat.not_le.mpr hj]
    rw [h1, Bool.false_or, Nat.testBit_to_div_mod, Nat.testBit_to_div_mod]
    have hsplit : 2 ^ k * a + x = 2 ^ j * (2 ^ (k - j) * a) + x := by
      rw [← Nat.mul_assoc, ← Nat.pow_add]
      have hkj : j + (k - j) = k := by omega
      rw [hkj]
    rw [hsplit, Nat.mul_add_div (Nat.two_pow_pos j)]
    have heven : 2 ^ (k - j) * a % 2 = 0 := by
      have hform : 2 ^ (k - j) * a = 2 * (2 ^ (k - j - 1) * a) := by
        rw [← Nat.mul_assoc, ← Nat.pow_succ']
        have hkj1 : k - j - 1 + 1 = k - j := by omega
        rw [Nat.succ_eq_add_one, hkj1]
      omega
    have hmod : (2 ^ (k - j) * a + x / 2 ^ j) % 2 = x / 2 ^ j % 2 := by omega
    rw [hmod]
  · have hxj : x.testBit j = false :=
      Nat.testBit_lt_two_pow
        (Nat.lt_of_lt_of_le hx (Nat.pow_le_pow_right (by omega) hj))
    rw [hxj, Bool.or_false, Nat.testBit_to_div_mod, Nat.testBit_to_div_mod]
    have hj2 : 2 ^ j = 2 ^ k * 2 ^ (j - k) := by
      rw [← Nat.pow_add]
      have hkj : k + (j - k) = j := by omega
      rw [hkj]
    have h2 : (2 ^ k * a + x) / 2 ^ j = a / 2 ^ (j - k) := by
      rw [hj2, ← Nat.div_div_eq_div_mul, Nat.mul_add_div (Nat.two_pow_pos k),
        Nat.div_eq_of_lt hx, Nat.add_zero]
    have h3 : 2 ^ k * a / 2 ^ j = a / 2 ^ (j - k) := by
      rw [hj2, ← Nat.div_div_eq_div_mul, Nat.mul_div_cancel_left _ (Nat.two_pow_pos k)]
    rw [h2, h3]

theorem land_239_fin :
    ∀ h : Fin 128, Nat.testBit h.val 4 = false → h.val &&& 239 = h.val := by
  decide

theorem land_239_of (n : Nat) (h1 : n < 128) (h2 : Nat.testBit n 4 = false) :
    n &&& 239 = n :=
  land_239_fin ⟨n, h1⟩ h2

/-- The pure bit computation of encode, in the domain where it round
trips: parentId below 2 ^ 15 and index below 2 ^ 15 with bit 12 clear.
The packed word is parentId in the high bits, the type bit at bit 15 and
the index in the low 15 bits. -/
theorem encode_bits_eq (cBit p i : Nat) (hc : cBit ≤ 1) (hp : p < 2 ^ 15)
    (hi : i < 2 ^ 15) (hbit : Nat.testBit i 12 = false) :
    ((p <<< 16) ||| (((cBit <<< 7) ||| ((i >>> 8) &&& 239)) <<< 8)) ||| (i &&& 255)
      = 65536 * p + 32768 * cBit + i := by
  have h1 : i >>> 8 = i / 256 := by
    rw [Nat.shiftRight_eq_div_pow]
  have hb : (i / 256).testBit 4 = false := by
    rw [← h1, Nat.testBit_shiftRight]
    exact hbit
  have h2 : (i / 256) &&& 239 = i / 256 := land_239_of _ (by omega) hb
  have h3 : cBit <<< 7 = 2 ^ 7 * cBit := by
    rw [Nat.shiftLeft_eq]
    ring
  have h4 : (2 ^ 7 * cBit) ||| (i / 256) = 2 ^ 7 * cBit + i / 256 :=
    lor_two_pow_mul_eq_add 7 cBit (i / 256) (by omega)
  have h5 : i &&& 255 = i % 2 ^ 8 := by
    rw [show (255 : Nat) = 2 ^ 8 - 1 by norm_num, Nat.and_pow_two_sub_one_eq_mod]
  have h6 : p <<< 16 = 2 ^ 16 * p := by
    rw [Nat.shiftLeft_eq]
    ring
  have h7 : (2 ^ 7 * cBit + i / 256) <<< 8 = 2 ^ 8 * (2 ^ 7 * cBit + i / 256) := by
    rw [Nat.shiftLeft_eq]
    ring
  rw [h1, h2, h3, h4, h5, h6, h7]
  have h8 : (2 ^ 16 * p) ||| (2 ^ 8 * (2 ^ 7 * cBit + i / 256))
      = 2 ^ 16 * p + 2 ^ 8 * (2 ^ 7 * cBit + i / 256) :=
    lor_two_pow_mul_eq_add 16 p _ (by omega)
  rw [h8]
  have h9 : 2 ^ 16 * p + 2 ^ 8 * (2 ^ 7 * cBit + i / 256)
      = 2 ^ 8 * (2 ^ 8 * p + (2 ^ 7 * cBit + i / 256)) := by ring
  rw [h9, lor_two_pow_mul_eq_add 8 _ _ (by omega)]
  omega

/-- C9 (amended): the encoder round trips on the domain the masks actually
preserve: for parentId below 2^15 and index below 2^15 with bit 12 clear,
decode of encode returns the original parentId and index, with type 0 for
edge and 1 for face, the packed id being parentId in the high 16 bits, the
type at bit 15 and the index in the low 15 bits; and encode throws its
precondition failure exactly when parentId exceeds 2^16 or index exceeds
2^15.  (Outside that domain the round trip fails: the mask 0xef drops bit
12 of the index, index 2^15 collides with the type bit, and parentId at or
above 2^15 sign-extends to a negative decoded parentId.) -/
theorem GeometryIdEncoder.roundtrip_amended :
    (∀ (ty : GeomType) (p i : Nat),
        p < 2 ^ 15 → i < 2 ^ 15 → Nat.testBit i 12 = false →
        GeometryIdEncoder.encode ty (p : Int) (i : Int)
          = Except.ok
            ((65536 * p + 32768 * (if ty = GeomType.edge then 0 else 1) + i : Nat) : Int)
        ∧ GeometryIdEncoder.decode
            ((65536 * p + 32768 * (if ty = GeomType.edge then 0 else 1) + i : Nat) : Int)
          = { parentId := (p : Int)
              type := if ty = GeomType.edge then 0 else 1
              index := (i : Int) })
    ∧ (∀ (ty : GeomType) (p i : Int),
        (∃ msg, GeometryIdEncoder.encode ty p i = Except.error msg)
          ↔ (p > 2 ^ 16 ∨ i > 2 ^ 15)) := by
  constructor
  · intro ty p i hp hi hbit
    have hc : (if ty = GeomType.edge then (0 : Nat) else 1) ≤ 1 := by
      cases ty <;> simp
    have hcast : (if ty = GeomType.edge then (0 : Int) else 1)
        = ((if ty = GeomType.edge then (0 : Nat) else 1 : Nat) : Int) := by
      cases ty <;> simp
    have hg1 : ¬((p : Int) > 2 ^ 16) := by omega
    have hg2 : ¬((i : Int) > 2 ^ 15) := by omega
    have hA : p <<< 16 = 2 ^ 16 * p := by rw [Nat.shiftLeft_eq]; ring
    have hC : (if ty = GeomType.edge then (0 : Nat) else 1) <<< 7
        = 2 ^ 7 * (if ty = GeomType.edge then (0 : Nat) else 1) := by
      rw [Nat.shiftLeft_eq]; ring
    have hIH : i >>> 8 = i / 256 := by rw [Nat.shiftRight_eq_div_pow]
    have hAndLe : (i >>> 8) &&& 239 ≤ i >>> 8 := Nat.and_le_left
    have hD : ((if ty = GeomType.edge then (0 : Nat) else 1) <<< 7)
        ||| ((i >>> 8) &&& 239) < 2 ^ 8 :=
      Nat.or_lt_two_pow (by omega) (by omega)
    have hDsh : (((if ty = GeomType.edge then (0 : Nat) else 1) <<< 7)
        ||| ((i >>> 8) &&& 239)) <<< 8
        = 2 ^ 8 * (((if ty = GeomType.edge then (0 : Nat) else 1) <<< 7)
          ||| ((i >>> 8) &&& 239)) := by
      rw [Nat.shiftLeft_eq]; ring
    have hAndE : i &&& 255 ≤ i := Nat.and_le_left
    have hOr1 : (p <<< 16) ||| ((((if ty = GeomType.edge then (0 : Nat) else 1) <<< 7)
        ||| ((i >>> 8) &&& 239)) <<< 8) < 2 ^ 31 :=
      Nat.or_lt_two_pow (by omega) (by omega)
    have henc : GeometryIdEncoder.encode ty (p : Int) (i : Int)
        = Except.ok
          ((((p <<< 16) ||| ((((if ty = GeomType.edge then (0 : Nat) else 1) <<< 7)
              ||| ((i >>> 8) &&& 239)) <<< 8)) ||| (i &&& 255) : Nat) : Int) := by
      simp only [GeometryIdEncoder.encode]
      rw [if_neg hg1, if_neg hg2]
      rw [hcast]
      rw [jsShl_natCast p 16 (by omega) (by omega)]
      rw [jsShl_natCast (if ty = GeomType.edge then (0 : Nat) else 1) 7
        (by omega) (by omega)]
      rw [jsShr_natCast i 8 (by omega)]
      rw [show (0xef : Int) = ((239 : Nat) : Int) from rfl]
      rw [jsAnd_natCast (i >>> 8) 239 (by omega) (by omega)]
      rw [jsOr_natCast ((if ty = GeomType.edge then (0 : Nat) else 1) <<< 7)
        ((i >>> 8) &&& 239) (by omega) (by omega)]
      rw [jsShl_natCast (((if ty = GeomType.edge then (0 : Nat) else 1) <<< 7)
        ||| ((i >>> 8) &&& 239)) 8 (by omega) (by omega)]
      rw [jsShr_natCast i 0 (by omega)]
      rw [Nat.shiftRight_zero]
      rw [show (255 : Int) = ((255 : Nat) : Int) from rfl]
      rw [jsAnd_natCast i 255 (by omega) (by omega)]
      rw [jsOr_natCast (p <<< 16)
        ((((if ty = GeomType.edge then (0 : Nat) else 1) <<< 7)
          ||| ((i >>> 8) &&& 239)) <<< 8) (by omega) (by omega)]
      rw [jsOr_natCast _ (i &&& 255) hOr1 (by omega)]
    have hBits := encode_bits_eq (if ty = GeomType.edge then (0 : Nat) else 1)
      p i hc hp hi hbit
    constructor
    · rw [henc, hBits]
    · have hidlt : 65536 * p + 32768 * (if ty = GeomType.edge then (0 : Nat) else 1) + i
          < 2 ^ 31 := by omega
      simp only [GeometryIdEncoder.decode]
      rw [show (0xffff : Int) = ((65535 : Nat) : Int) from rfl]
      rw [jsAnd_natCast _ 65535 hidlt (by omega)]
      have hd2 : (65536 * p + 32768 * (if ty = GeomType.edge then (0 : Nat) else 1) + i)
          &&& 65535 = 32768 * (if ty = GeomType.edge then (0 : Nat) else 1) + i := by
        rw [show (65535 : Nat) = 2 ^ 16 - 1 by norm_num,
          Nat.and_pow_two_sub_one_eq_mod]
        omega
      rw [hd2]
      rw [jsShr_natCast _ 16 hidlt]
      have hd1 : (65536 * p + 32768 * (if ty = GeomType.edge then (0 : Nat) else 1) + i)
          >>> 16 = p := by
        rw [Nat.shiftRight_eq_div_pow]
        omega
      rw [hd1]
      rw [jsShr_natCast _ 15 (by omega)]
      have hd3 : (32768 * (if ty = GeomType.edge then (0 : Nat) else 1) + i) >>> 15
          = (if ty = GeomType.edge then (0 : Nat) else 1) := by
        rw [Nat.shiftRight_eq_div_pow]
        omega
      rw [hd3]
      rw [show (0x7fff : Int) = ((32767 : Nat) : Int) from rfl]
      rw [jsAnd_natCast _ 32767 (by omega) (by omega)]
      have hd4 : (32768 * (if ty = GeomType.edge then (0 : Nat) else 1) + i)
          &&& 32767 = i := by
        rw [show (32767 : Nat) = 2 ^ 15 - 1 by norm_num,
          Nat.and_pow_two_sub_one_eq_mod]
        omega
      rw [hd4, hcast]
  · intro ty p i
    simp only [GeometryIdEncoder.encode]
    by_cases h1 : (65536 : Int) < p
    · simp [h1]
    · by_cases h2 : (32768 : Int) < i
      · simp [h1, h2]
      · simp [h1, h2]

/-- C9 witness: the amended round trip applied at type edge, parentId 5,
index 7. -/
theorem GeometryIdEncoder.roundtrip_amended_witness :
    GeometryIdEncoder.encode GeomType.edge ((5 : Nat) : Int) ((7 : Nat) : Int)
      = Except.ok
        ((65536 * 5 + 32768 * (if GeomType.edge = GeomType.edge then 0 else 1) + 7 : Nat) : Int)
    ∧ GeometryIdEncoder.decode
        ((65536 * 5 + 32768 * (if GeomType.edge = GeomType.edge then 0 else 1) + 7 : Nat) : Int)
      = { parentId := ((5 : Nat) : Int)
          type := if GeomType.edge = GeomType.edge then 0 else 1
          index := ((7 : Nat) : Int) } :=
  GeometryIdEncoder.roundtrip_amended.1 GeomType.edge 5 7 (by norm_num) (by norm_num)
    (by decide)
